import Mathlib

/-!
# rocket-path: one-dimensional two-segment trajectory (`onedpath.cpp`)

Shallow embedding of the trajectory state, the four acceleration constraints with
their analytic gradients, and the three correction steps `moveTowardFeasibility`,
`moveInConstrainedGradientDir` and `fixupConstraint`.

The program computes in `double`.  Here every `double` is an element of an arbitrary
linearly ordered field `K` and all operations are exact; the definitions are computable
at `K = ℚ` and are read at `K = ℝ` where derivatives are concerned.  Two library routines
that the source calls are taken as parameters: the dense solver
`colPivHouseholderQr().solve` (Eigen) and the square root inside `VectorXd::norm`.
-/

namespace OneDPath

open Matrix

/-! ## Data model -/

/-- Number of slots of `Trajectory::var` (the enumerator `M` of `enum V`). -/
abbrev M : ℕ := 8

/-- Count of free variables, `numVars`. -/
abbrev numVars : ℕ := 3

/-- Count of constraints, `numConstraints`. -/
abbrev numConstraints : ℕ := 4

/-- Enumerator `duration0` of `enum V`. -/
abbrev duration0 : Fin M := 0
/-- Enumerator `duration1` of `enum V`. -/
abbrev duration1 : Fin M := 1
/-- Enumerator `vel1X` of `enum V`. -/
abbrev vel1X : Fin M := 2
/-- Enumerator `pos0X` of `enum V`. -/
abbrev pos0X : Fin M := 3
/-- Enumerator `vel0X` of `enum V`. -/
abbrev vel0X : Fin M := 4
/-- Enumerator `pos1X` of `enum V`. -/
abbrev pos1X : Fin M := 5
/-- Enumerator `pos2X` of `enum V`. -/
abbrev pos2X : Fin M := 6
/-- Enumerator `vel2X` of `enum V`. -/
abbrev vel2X : Fin M := 7

/-- The record `struct Trajectory { double var[M]; }`. -/
structure Trajectory (K : Type) where
  var : Fin M → K

/-- Slot of `Trajectory::var` addressed by the index `k` of a free variable
(`traj.var[i]` for `i < numVars`). -/
def freeVar (k : Fin numVars) : Fin M := Fin.castLE (by decide) k

/-- Assignment `traj.var[i] = x`. -/
def Trajectory.set {K : Type} (traj : Trajectory K) (i : Fin M) (x : K) : Trajectory K :=
  ⟨Function.update traj.var i x⟩

/-- The trajectory with the given entries, listed in the order of `enum V`. -/
def Trajectory.ofValues {K : Type} (d0 d1 v1 p0 v0 p1 p2 v2 : K) : Trajectory K :=
  ⟨![d0, d1, v1, p0, v0, p1, p2, v2]⟩

/-- Output of a constraint function: the `error` and `deriv[numVars]` out-parameters. -/
structure ConstraintEval (K : Type) where
  error : K
  deriv : Fin numVars → K

/-- The function type `ConstraintFunc`. -/
abbrev ConstraintFunc (K : Type) := Trajectory K → ConstraintEval K

section Field

variable {K : Type} [LinearOrderedField K]

/-- The constant `accelerationLimit`. -/
def accelerationLimit : K := 100

/-- The helper `sqr`. -/
def sqr (x : K) : K := x * x

/-- The trajectory written by `OneDPath::init`: `memset` to zero, then the eight
assignments in source order. -/
def init : Trajectory K :=
  let t : Trajectory K := ⟨fun _ => 0⟩
  let t := t.set pos0X 0
  let t := t.set vel0X 0
  let t := t.set pos1X 200
  let t := t.set vel1X 0
  let t := t.set pos2X 400
  let t := t.set vel2X 0
  let t := t.set duration0 3.4641
  t.set duration1 3.4641

/-! ## Constraint evaluation -/

/-- The local `a` of `evalConstraint0`: acceleration at the start of segment 0. -/
def accel0 (traj : Trajectory K) : K :=
  let h := traj.var duration0
  let p0 := traj.var pos0X
  let v0 := traj.var vel0X
  let p1 := traj.var pos1X
  let v1 := traj.var vel1X
  let dPos := p1 - p0
  (dPos * 6 / h + v0 * -4 + v1 * -2) / h

/-- The local `a` of `evalConstraint1`: acceleration at the end of segment 0. -/
def accel1 (traj : Trajectory K) : K :=
  let h := traj.var duration0
  let p0 := traj.var pos0X
  let v0 := traj.var vel0X
  let p1 := traj.var pos1X
  let v1 := traj.var vel1X
  let dPos := p1 - p0
  (dPos * -6 / h + v0 * 2 + v1 * 4) / h

/-- The local `a` of `evalConstraint2`: acceleration at the start of segment 1. -/
def accel2 (traj : Trajectory K) : K :=
  let h := traj.var duration1
  let p0 := traj.var pos1X
  let v0 := traj.var vel1X
  let p1 := traj.var pos2X
  let v1 := traj.var vel2X
  let dPos := p1 - p0
  (dPos * 6 / h + v0 * -4 + v1 * -2) / h

/-- The local `a` of `evalConstraint3`: acceleration at the end of segment 1. -/
def accel3 (traj : Trajectory K) : K :=
  let h := traj.var duration1
  let p0 := traj.var pos1X
  let v0 := traj.var vel1X
  let p1 := traj.var pos2X
  let v1 := traj.var vel2X
  let dPos := p1 - p0
  (dPos * -6 / h + v0 * 2 + v1 * 4) / h

/-- The function `evalConstraint0`. -/
def evalConstraint0 : ConstraintFunc K := fun traj =>
  let h := traj.var duration0
  let p0 := traj.var pos0X
  let v0 := traj.var vel0X
  let p1 := traj.var pos1X
  let v1 := traj.var vel1X
  let dPos := p1 - p0
  let a := accel0 traj
  let dAdH := (dPos * -12 / h + v0 * 4 + v1 * 2) / sqr h
  { error := sqr a - sqr accelerationLimit
    deriv := ![2 * a * dAdH, 0, a * -4 / h] }

/-- The function `evalConstraint1`. -/
def evalConstraint1 : ConstraintFunc K := fun traj =>
  let h := traj.var duration0
  let p0 := traj.var pos0X
  let v0 := traj.var vel0X
  let p1 := traj.var pos1X
  let v1 := traj.var vel1X
  let dPos := p1 - p0
  let a := accel1 traj
  let dAdH := (dPos * 12 / h + v0 * -2 + v1 * -4) / sqr h
  { error := sqr a - sqr accelerationLimit
    deriv := ![2 * a * dAdH, 0, a * 8 / h] }

/-- The function `evalConstraint2`. -/
def evalConstraint2 : ConstraintFunc K := fun traj =>
  let h := traj.var duration1
  let p0 := traj.var pos1X
  let v0 := traj.var vel1X
  let p1 := traj.var pos2X
  let v1 := traj.var vel2X
  let dPos := p1 - p0
  let a := accel2 traj
  let dAdH := (dPos * -12 / h + v0 * 4 + v1 * 2) / sqr h
  { error := sqr a - sqr accelerationLimit
    deriv := ![0, 2 * a * dAdH, a * -8 / h] }

/-- The function `evalConstraint3`. -/
def evalConstraint3 : ConstraintFunc K := fun traj =>
  let h := traj.var duration1
  let p0 := traj.var pos1X
  let v0 := traj.var vel1X
  let p1 := traj.var pos2X
  let v1 := traj.var vel2X
  let dPos := p1 - p0
  let a := accel3 traj
  let dAdH := (dPos * 12 / h + v0 * -2 + v1 * -4) / sqr h
  { error := sqr a - sqr accelerationLimit
    deriv := ![0, 2 * a * dAdH, a * 4 / h] }

/-- The dispatch table `constraints[numConstraints]`. -/
def constraints : Fin numConstraints → ConstraintFunc K :=
  ![evalConstraint0, evalConstraint1, evalConstraint2, evalConstraint3]

/-- The function `evalConstraints`: entry `i` holds `error[i]` and `deriv[i]`. -/
def evalConstraints (traj : Trajectory K) : Fin numConstraints → ConstraintEval K :=
  fun i => constraints i traj

/-! ## Correction steps -/

/-- Signature of Eigen's `A.colPivHouseholderQr().solve(b)` for a square `n × n` system.
The routine is library code; it is a parameter of every step that calls it. -/
abbrev Solver (K : Type) := (n : ℕ) → Matrix (Fin n) (Fin n) K → (Fin n → K) → (Fin n → K)

/-- The selection loop of `moveTowardFeasibility`: the array `constraintIndex`
(of length `n`) of the constraints with `constraintError[i] > 0`, in increasing order. -/
def violatedConstraints (ce : Fin numConstraints → ConstraintEval K) :
    List (Fin numConstraints) :=
  (List.finRange numConstraints).filter fun i => decide ((ce i).error > 0)

/-- The selection loop of `moveInConstrainedGradientDir`: a constraint is skipped when
`constraintError[i] <= -1.0e-4` and kept otherwise. -/
def activeConstraints (ce : Fin numConstraints → ConstraintEval K) :
    List (Fin numConstraints) :=
  (List.finRange numConstraints).filter fun i => !decide ((ce i).error ≤ -1.0e-4)

/-- The matrix `g(n, numVars)` with `g(j, k) = constraintGradient[constraintIndex[j]][k]`. -/
def gatherGradients (ce : Fin numConstraints → ConstraintEval K)
    (constraintIndex : List (Fin numConstraints)) :
    Matrix (Fin constraintIndex.length) (Fin numVars) K :=
  Matrix.of fun j k => (ce (constraintIndex.get j)).deriv k

/-- The vector `err(n)` with `err(j) = constraintError[constraintIndex[j]]`. -/
def gatherErrors (ce : Fin numConstraints → ConstraintEval K)
    (constraintIndex : List (Fin numConstraints)) : Fin constraintIndex.length → K :=
  fun j => (ce (constraintIndex.get j)).error

/-- The matrix `g * g.transpose()` (`a` in `moveTowardFeasibility`, `m` in
`moveInConstrainedGradientDir`). -/
def gramMatrix (ce : Fin numConstraints → ConstraintEval K)
    (constraintIndex : List (Fin numConstraints)) :
    Matrix (Fin constraintIndex.length) (Fin constraintIndex.length) K :=
  let g := gatherGradients ce constraintIndex
  g * gᵀ

/-- The vector `m = a.colPivHouseholderQr().solve(err)` of `moveTowardFeasibility`. -/
def feasibilityMultipliers (solve : Solver K) (ce : Fin numConstraints → ConstraintEval K)
    (constraintIndex : List (Fin numConstraints)) : Fin constraintIndex.length → K :=
  solve constraintIndex.length (gramMatrix ce constraintIndex)
    (gatherErrors ce constraintIndex)

/-- The vector `dX` of `moveTowardFeasibility` for a given selection `constraintIndex`:
zero when nothing is selected (`n == 0`), otherwise `g.transpose() * -m`. -/
def feasibilityStep (solve : Solver K) (ce : Fin numConstraints → ConstraintEval K)
    (constraintIndex : List (Fin numConstraints)) : Fin numVars → K :=
  if constraintIndex.length > 0 then
    let g := gatherGradients ce constraintIndex
    let m := feasibilityMultipliers solve ce constraintIndex
    gᵀ *ᵥ (-m)
  else 0

/-- The closing loop `for (i < numVars) traj.var[i] += dX[i]`. -/
def addStep (traj : Trajectory K) (dX : Fin numVars → K) : Trajectory K :=
  ⟨fun i => if h : i.val < numVars then traj.var i + dX ⟨i.val, h⟩ else traj.var i⟩

/-- The function `moveTowardFeasibility` (the debug output is omitted). -/
def moveTowardFeasibility (solve : Solver K) (traj : Trajectory K) : Trajectory K :=
  let ce := evalConstraints traj
  let constraintIndex := violatedConstraints ce
  let dX := feasibilityStep solve ce constraintIndex
  addStep traj dX

/-- The initial value of `obj` in `moveInConstrainedGradientDir`. -/
def objectiveDir : Fin numVars → K := ![-0.707107, -0.707107, 0]

/-- The right-hand side `err = -(g * obj)` of `moveInConstrainedGradientDir`. -/
def projectionRhs (ce : Fin numConstraints → ConstraintEval K)
    (constraintIndex : List (Fin numConstraints)) : Fin constraintIndex.length → K :=
  -(gatherGradients ce constraintIndex *ᵥ objectiveDir)

/-- The vector `x = m.colPivHouseholderQr().solve(err)` of `moveInConstrainedGradientDir`. -/
def projectionMultipliers (solve : Solver K) (ce : Fin numConstraints → ConstraintEval K)
    (constraintIndex : List (Fin numConstraints)) : Fin constraintIndex.length → K :=
  solve constraintIndex.length (gramMatrix ce constraintIndex)
    (projectionRhs ce constraintIndex)

/-- The value of `obj` after `obj += g.transpose() * x`. -/
def correctedObjective (solve : Solver K) (ce : Fin numConstraints → ConstraintEval K)
    (constraintIndex : List (Fin numConstraints)) : Fin numVars → K :=
  objectiveDir + (gatherGradients ce constraintIndex)ᵀ *ᵥ
    projectionMultipliers solve ce constraintIndex

/-- The final value of `obj` in `moveInConstrainedGradientDir` for a given selection
`constraintIndex`: the initial direction when nothing is selected (`n == 0`), otherwise
the corrected direction divided by `max(1.0 / 1024.0, d)`, where `d = obj.norm()` is the
square root of the sum of the squares of its entries. -/
def constrainedObjective (sqrt : K → K) (solve : Solver K)
    (ce : Fin numConstraints → ConstraintEval K)
    (constraintIndex : List (Fin numConstraints)) : Fin numVars → K :=
  if constraintIndex.length > 0 then
    let obj := correctedObjective solve ce constraintIndex
    let d := sqrt (obj ⬝ᵥ obj)
    fun k => obj k / max (1 / 1024) d
  else objectiveDir

/-- The function `moveInConstrainedGradientDir` (the debug output is omitted). -/
def moveInConstrainedGradientDir (sqrt : K → K) (solve : Solver K) (traj : Trajectory K) :
    Trajectory K :=
  let ce := evalConstraints traj
  let constraintIndex := activeConstraints ce
  let obj := constrainedObjective sqrt solve ce constraintIndex
  addStep traj obj

/-- The function `fixupConstraint`. -/
def fixupConstraint (traj : Trajectory K) (constraint : ConstraintFunc K) : Trajectory K :=
  let r := constraint traj
  if r.error ≤ 0 then traj
  else
    let d := ∑ i : Fin numVars, sqr (r.deriv i)
    let u := r.error / d
    ⟨fun i => if h : i.val < numVars then traj.var i - r.deriv ⟨i.val, h⟩ * u
      else traj.var i⟩

/-! ## Predicates used in the statements -/

/-- The five fixed parameters have the same value in `t'` as in `t`. -/
def SameFixed (t t' : Trajectory K) : Prop :=
  t'.var pos0X = t.var pos0X ∧ t'.var vel0X = t.var vel0X ∧ t'.var pos1X = t.var pos1X ∧
    t'.var pos2X = t.var pos2X ∧ t'.var vel2X = t.var vel2X

/-- The segment-0 arguments of `t'` are the segment-1 arguments of `t`. -/
def ShiftedSegment (t t' : Trajectory K) : Prop :=
  t'.var pos0X = t.var pos1X ∧ t'.var vel0X = t.var vel1X ∧ t'.var pos1X = t.var pos2X ∧
    t'.var vel1X = t.var vel2X ∧ t'.var duration0 = t.var duration1

/-- The vector `x` is a least-squares solution of `A x = b`: no `y` has a smaller squared
residual. This is what `colPivHouseholderQr().solve` computes in exact arithmetic. -/
def IsLeastSquares {n : ℕ} (A : Matrix (Fin n) (Fin n) K) (b x : Fin n → K) : Prop :=
  ∀ y : Fin n → K, (A *ᵥ x - b) ⬝ᵥ (A *ᵥ x - b) ≤ (A *ᵥ y - b) ⬝ᵥ (A *ᵥ y - b)

/-- The change of the free variables from `t` to `t'`. -/
def appliedStep (t t' : Trajectory K) : Fin numVars → K :=
  fun k => t'.var (freeVar k) - t.var (freeVar k)

/-- The step `delta = -gradient * (error / ‖gradient‖²)` for one constraint evaluation. -/
def fixupDelta (r : ConstraintEval K) : Fin numVars → K :=
  fun k => -(r.deriv k) * (r.error / ∑ i : Fin numVars, sqr (r.deriv i))

/-- The duration a constraint reads: `duration0` for constraints 0 and 1, `duration1` for
constraints 2 and 3 (the local `h` of each constraint function). -/
def relevantDuration (c : Fin numConstraints) : Fin M :=
  ![duration0, duration0, duration1, duration1] c

/-! ## Closed forms of the acceleration -/

/-- Start-of-segment acceleration as the specification writes it:
`a_start = (Δpos * 6/h) - (4*v_start + 2*v_end)/h`. -/
def specAccelStart (dpos vStart vEnd h : K) : K :=
  (dpos * 6 / h) - (4 * vStart + 2 * vEnd) / h

/-- End-of-segment acceleration as the specification writes it:
`a_end = -(Δpos * 6/h) + (2*v_start + 4*v_end)/h`. -/
def specAccelEnd (dpos vStart vEnd h : K) : K :=
  -(dpos * 6 / h) + (2 * vStart + 4 * vEnd) / h

/-- Start-of-segment acceleration with the position term divided by `h` twice:
`(Δpos * 6/h - (4*v_start + 2*v_end)) / h`. -/
def hermiteAccelStart (dpos vStart vEnd h : K) : K :=
  (dpos * 6 / h - (4 * vStart + 2 * vEnd)) / h

/-- End-of-segment acceleration with the position term divided by `h` twice:
`(-(Δpos * 6/h) + (2*v_start + 4*v_end)) / h`. -/
def hermiteAccelEnd (dpos vStart vEnd h : K) : K :=
  (-(dpos * 6 / h) + (2 * vStart + 4 * vEnd)) / h

/-! ## Sample data -/

/-- Integer square root of the integer part: a stand-in for the library square root on
sample values. -/
def floorSqrt (x : ℚ) : ℚ := (Nat.sqrt ⌊x⌋₊ : ℕ)

/-- A solver that uses the first unknown alone: `x₀ = b₀ / A₀₀` and zero elsewhere. It is
exact on `1 × 1` systems and on rank-one systems whose first diagonal entry is not zero. -/
def pivotSolve : Solver K := fun _ A b j => if j.val = 0 then b j / A j j else 0

/-- A feasible sample: the baseline positions and velocities with both durations 10. -/
def slowTraj : Trajectory ℚ := Trajectory.ofValues 10 10 0 0 0 200 400 0

/-- A sample in which constraint 0 alone is violated:
`duration0 = 2`, `duration1 = 10`, `vel1 = 150`. -/
def oneViolatedTraj : Trajectory ℚ := Trajectory.ofValues 2 10 150 0 0 200 400 0

/-- The sample `oneViolatedTraj` read over the reals. -/
def oneViolatedTrajReal : Trajectory ℝ := Trajectory.ofValues 2 10 150 0 0 200 400 0

/-- The sample `oneViolatedTraj` with its segment 1 moved to segment 0. -/
def shiftedTraj : Trajectory ℚ := Trajectory.ofValues 10 10 0 200 150 400 400 0

/-- A sample in which constraints 0 and 1 are violated and have proportional gradients:
`duration0 = 2`, `duration1 = 10`, `vel1 = 150`, `vel0 = 200`. -/
def proportionalTraj : Trajectory ℚ := Trajectory.ofValues 2 10 150 0 200 200 400 0

/-- The `duration` entry shared by the four gradients on the trajectory of `init`. -/
def initDurationSlope : K := 2 * (1200 / sqr 3.4641) * (-2400 / 3.4641 / sqr 3.4641)

end Field

/-! ## Auxiliary lemmas -/

section Lemmas

variable {K : Type} [LinearOrderedField K]

@[simp] theorem ofValues_duration0 {K : Type} (d0 d1 v1 p0 v0 p1 p2 v2 : K) :
    (Trajectory.ofValues d0 d1 v1 p0 v0 p1 p2 v2).var duration0 = d0 := rfl

@[simp] theorem ofValues_duration1 {K : Type} (d0 d1 v1 p0 v0 p1 p2 v2 : K) :
    (Trajectory.ofValues d0 d1 v1 p0 v0 p1 p2 v2).var duration1 = d1 := rfl

@[simp] theorem ofValues_vel1X {K : Type} (d0 d1 v1 p0 v0 p1 p2 v2 : K) :
    (Trajectory.ofValues d0 d1 v1 p0 v0 p1 p2 v2).var vel1X = v1 := rfl

@[simp] theorem ofValues_pos0X {K : Type} (d0 d1 v1 p0 v0 p1 p2 v2 : K) :
    (Trajectory.ofValues d0 d1 v1 p0 v0 p1 p2 v2).var pos0X = p0 := rfl

@[simp] theorem ofValues_vel0X {K : Type} (d0 d1 v1 p0 v0 p1 p2 v2 : K) :
    (Trajectory.ofValues d0 d1 v1 p0 v0 p1 p2 v2).var vel0X = v0 := rfl

@[simp] theorem ofValues_pos1X {K : Type} (d0 d1 v1 p0 v0 p1 p2 v2 : K) :
    (Trajectory.ofValues d0 d1 v1 p0 v0 p1 p2 v2).var pos1X = p1 := rfl

@[simp] theorem ofValues_pos2X {K : Type} (d0 d1 v1 p0 v0 p1 p2 v2 : K) :
    (Trajectory.ofValues d0 d1 v1 p0 v0 p1 p2 v2).var pos2X = p2 := rfl

@[simp] theorem ofValues_vel2X {K : Type} (d0 d1 v1 p0 v0 p1 p2 v2 : K) :
    (Trajectory.ofValues d0 d1 v1 p0 v0 p1 p2 v2).var vel2X = v2 := rfl

/-- The trajectory of `init`, entry by entry. -/
theorem init_eq_ofValues :
    (init : Trajectory K) = Trajectory.ofValues 3.4641 3.4641 0 0 0 200 400 0 := by
  have h : ∀ i, (init : Trajectory K).var i =
      (Trajectory.ofValues 3.4641 3.4641 0 0 0 200 400 0 : Trajectory K).var i := by
    intro i
    fin_cases i <;> rfl
  cases hi : (init : Trajectory K) with
  | mk v =>
    rw [hi] at h
    simp only [Trajectory.ofValues, Trajectory.mk.injEq]
    exact funext h

theorem addStep_var_fixed (traj : Trajectory K) (dX : Fin numVars → K) (i : Fin M)
    (hi : numVars ≤ i.val) : (addStep traj dX).var i = traj.var i := by
  simp [addStep, Nat.not_lt.mpr hi]

theorem addStep_var_free (traj : Trajectory K) (dX : Fin numVars → K) (k : Fin numVars) :
    (addStep traj dX).var (freeVar k) = traj.var (freeVar k) + dX k := by
  simp [addStep, freeVar]

theorem addStep_sameFixed (traj : Trajectory K) (dX : Fin numVars → K) :
    SameFixed traj (addStep traj dX) := by
  refine ⟨?_, ?_, ?_, ?_, ?_⟩ <;> exact addStep_var_fixed _ _ _ (by decide)

theorem fixupConstraint_var_fixed (traj : Trajectory K) (constraint : ConstraintFunc K)
    (i : Fin M) (hi : numVars ≤ i.val) : (fixupConstraint traj constraint).var i = traj.var i := by
  unfold fixupConstraint
  simp only
  split_ifs
  · rfl
  · simp [Nat.not_lt.mpr hi]

theorem fixupConstraint_var_free (traj : Trajectory K) (constraint : ConstraintFunc K)
    (hviol : 0 < (constraint traj).error) (k : Fin numVars) :
    (fixupConstraint traj constraint).var (freeVar k) =
      traj.var (freeVar k) + fixupDelta (constraint traj) k := by
  unfold fixupConstraint
  simp only [not_le.mpr hviol, if_false]
  simp [freeVar, fixupDelta, sub_eq_add_neg]

/-- A violated constraint has a nonzero acceleration: `a² > 100²` excludes `a = 0`. -/
theorem accel_ne_zero_of_violated (a : K) (h : 0 < sqr a - sqr (accelerationLimit : K)) :
    a ≠ 0 := by
  rintro rfl
  norm_num [sqr, accelerationLimit] at h

/-- The `vel1X` entry of the gradient of a violated constraint is not zero. -/
theorem deriv_vel1X_ne_zero (traj : Trajectory K) (c : Fin numConstraints)
    (h0 : traj.var duration0 ≠ 0) (h1 : traj.var duration1 ≠ 0)
    (hviol : 0 < (constraints c traj).error) : (constraints c traj).deriv 2 ≠ 0 := by
  fin_cases c
  · have ha := accel_ne_zero_of_violated (accel0 traj) hviol
    simp [constraints, evalConstraint0, ha, h0]
  · have ha := accel_ne_zero_of_violated (accel1 traj) hviol
    simp [constraints, evalConstraint1, ha, h0]
  · have ha := accel_ne_zero_of_violated (accel2 traj) hviol
    simp [constraints, evalConstraint2, ha, h1]
  · have ha := accel_ne_zero_of_violated (accel3 traj) hviol
    simp [constraints, evalConstraint3, ha, h1]

/-- The divisor `d` of `fixupConstraint` is positive for a violated constraint. -/
theorem gradient_normSq_pos (traj : Trajectory K) (c : Fin numConstraints)
    (h0 : traj.var duration0 ≠ 0) (h1 : traj.var duration1 ≠ 0)
    (hviol : 0 < (constraints c traj).error) :
    0 < ∑ i : Fin numVars, sqr ((constraints c traj).deriv i) := by
  have h2 := deriv_vel1X_ne_zero traj c h0 h1 hviol
  rw [Fin.sum_univ_three]
  have := mul_self_nonneg ((constraints c traj).deriv 0)
  have := mul_self_nonneg ((constraints c traj).deriv 1)
  have := mul_self_pos.mpr h2
  simp only [sqr]
  linarith

/-- The step of `fixupDelta` cancels the first-order error when the divisor is not zero. -/
theorem error_add_dot_fixupDelta (r : ConstraintEval K)
    (hd : ∑ i : Fin numVars, sqr (r.deriv i) ≠ 0) :
    r.error + r.deriv ⬝ᵥ fixupDelta r = 0 := by
  simp only [Matrix.dotProduct, fixupDelta, Fin.sum_univ_three, sqr] at hd ⊢
  field_simp
  ring

/-- Derivative in `x` of `((A / x + B) / x)² - c`. -/
theorem hasDerivAt_sqr_accel_duration (A B c h : ℝ) (hh : h ≠ 0) :
    HasDerivAt (fun x : ℝ => sqr ((A / x + B) / x) - c)
      (2 * ((A / h + B) / h) * ((-2 * A / h - B) / sqr h)) h := by
  have h1 : HasDerivAt (fun x : ℝ => A / x) ((0 * h - A * 1) / h ^ 2) h :=
    (hasDerivAt_const h A).div (hasDerivAt_id h) hh
  have h2 := (h1.add_const B).div (hasDerivAt_id h) hh
  have h3 := (h2.mul h2).sub_const c
  convert h3 using 1
  simp only [sqr, id]
  field_simp
  ring

/-- Derivative in `v` of `((C + v * k) / h)² - c`. -/
theorem hasDerivAt_sqr_accel_velocity (C k c h v : ℝ) :
    HasDerivAt (fun x : ℝ => sqr ((C + x * k) / h) - c)
      (2 * ((C + v * k) / h) * (k / h)) v := by
  have h1 : HasDerivAt (fun x : ℝ => x * k) (1 * k) v := (hasDerivAt_id v).mul_const k
  have h2 := ((h1.const_add C).div_const h)
  have h3 := (h2.mul h2).sub_const c
  convert h3 using 1
  ring

theorem set_var {K : Type} (traj : Trajectory K) (i j : Fin M) (x : K) :
    (traj.set i x).var j = if j = i then x else traj.var j := by
  simp [Trajectory.set, Function.update_apply]

theorem dotProduct_self_nonneg_fin {n : ℕ} (v : Fin n → K) : 0 ≤ v ⬝ᵥ v :=
  Finset.sum_nonneg fun i _ => mul_self_nonneg (v i)

theorem isLeastSquares_of_exact {n : ℕ} (A : Matrix (Fin n) (Fin n) K) (b x : Fin n → K)
    (h : A *ᵥ x = b) : IsLeastSquares A b x := by
  intro y
  rw [h, sub_self, Matrix.zero_dotProduct]
  exact dotProduct_self_nonneg_fin _

theorem exact_of_isLeastSquares_of_solvable {n : ℕ} (A : Matrix (Fin n) (Fin n) K)
    (b x y : Fin n → K) (hy : A *ᵥ y = b) (h : IsLeastSquares A b x) : A *ᵥ x = b := by
  have h1 := h y
  rw [hy, sub_self, Matrix.zero_dotProduct] at h1
  have h2 : (A *ᵥ x - b) ⬝ᵥ (A *ᵥ x - b) = 0 := le_antisymm h1 (dotProduct_self_nonneg_fin _)
  exact sub_eq_zero.mp (Matrix.dotProduct_self_eq_zero.mp h2)

/-- A scalar quadratic `2 t c + t² d` with `d ≥ 0` that is nonnegative for all `t` has `c = 0`. -/
theorem eq_zero_of_quadratic_nonneg (c d : K) (hd : 0 ≤ d)
    (h : ∀ t : K, 0 ≤ 2 * t * c + t ^ 2 * d) : c = 0 := by
  rcases hd.eq_or_lt with hd0 | hdpos
  · have := h (-c)
    rw [← hd0] at this
    nlinarith [sq_nonneg c]
  · have := h (-c / d)
    have e : 2 * (-c / d) * c + (-c / d) ^ 2 * d = -(c ^ 2 / d) := by
      field_simp
      ring
    rw [e] at this
    have h3 : 0 ≤ c ^ 2 / d := div_nonneg (sq_nonneg c) hdpos.le
    have h4 : c ^ 2 / d = 0 := le_antisymm (by linarith) h3
    rcases div_eq_zero_iff.mp h4 with h5 | h5
    · exact pow_eq_zero_iff (two_ne_zero) |>.mp h5
    · exact absurd h5 hdpos.ne'

/-- Normal equations: the residual of a least-squares solution is orthogonal to the range. -/
theorem residual_orthogonal_of_isLeastSquares {n : ℕ} (A : Matrix (Fin n) (Fin n) K)
    (b x : Fin n → K) (h : IsLeastSquares A b x) (y : Fin n → K) :
    (A *ᵥ x - b) ⬝ᵥ (A *ᵥ y) = 0 := by
  apply eq_zero_of_quadratic_nonneg _ ((A *ᵥ y) ⬝ᵥ (A *ᵥ y)) (dotProduct_self_nonneg_fin _)
  intro t
  have h1 := h (x + t • y)
  have e : A *ᵥ (x + t • y) - b = (A *ᵥ x - b) + t • (A *ᵥ y) := by
    rw [Matrix.mulVec_add, Matrix.mulVec_smul]
    abel
  rw [e] at h1
  simp only [Matrix.add_dotProduct, Matrix.dotProduct_add, Matrix.smul_dotProduct,
    Matrix.dotProduct_smul, smul_eq_mul] at h1
  rw [Matrix.dotProduct_comm (A *ᵥ y) (A *ᵥ x - b)] at h1
  nlinarith [h1]

/-- For a Gram matrix `G Gᵀ` and a right-hand side in the range of `G`, a least-squares
solution is an exact solution, also when `G Gᵀ` is singular. -/
theorem gram_exact_of_isLeastSquares {n m : ℕ} (G : Matrix (Fin n) (Fin m) K)
    (z : Fin m → K) (x : Fin n → K) (h : IsLeastSquares (G * Gᵀ) (G *ᵥ z) x) :
    (G * Gᵀ) *ᵥ x = G *ᵥ z := by
  set r := (G * Gᵀ) *ᵥ x - G *ᵥ z with hr
  have hr' : r = G *ᵥ (Gᵀ *ᵥ x - z) := by
    rw [hr, Matrix.mulVec_sub, Matrix.mulVec_mulVec]
  have h1 := residual_orthogonal_of_isLeastSquares _ _ _ h r
  rw [← hr, ← Matrix.mulVec_mulVec, Matrix.dotProduct_mulVec, Matrix.mulVec_transpose,
    Matrix.dotProduct_self_eq_zero] at h1
  have h2 : r ⬝ᵥ r = 0 := by
    have h3 : r ⬝ᵥ (G *ᵥ (Gᵀ *ᵥ x - z)) = 0 := by
      rw [Matrix.dotProduct_mulVec, h1, Matrix.zero_dotProduct]
    rwa [← hr'] at h3
  exact sub_eq_zero.mp (Matrix.dotProduct_self_eq_zero.mp h2)

theorem gram_singleton_mulVec (ce : Fin numConstraints → ConstraintEval K)
    (i : Fin numConstraints) (y : Fin [i].length → K) (j : Fin [i].length) :
    (gramMatrix ce [i] *ᵥ y) j = ((ce i).deriv ⬝ᵥ (ce i).deriv) * y ⟨0, by simp⟩ := by
  have hj : j = ⟨0, by simp⟩ := by
    apply Fin.ext
    have := j.isLt
    simp at this
    simp [this]
  subst hj
  simp only [gramMatrix, gatherGradients, Matrix.mulVec, Matrix.dotProduct, Matrix.mul_apply,
    Matrix.transpose_apply, Matrix.of_apply]
  show ∑ x : Fin 1, _ = _
  simp

theorem finRange_numConstraints : List.finRange numConstraints = [0, 1, 2, 3] := rfl

/-- Every constraint error of the trajectory of `init` is `(1200 / 3.4641²)² - 100²`. -/
theorem init_error (i : Fin numConstraints) :
    (evalConstraints (init : Trajectory K) i).error = sqr (1200 / sqr 3.4641) - sqr 100 := by
  rw [init_eq_ofValues]
  fin_cases i <;>
    norm_num [evalConstraints, constraints, evalConstraint0, evalConstraint1, evalConstraint2,
      evalConstraint3, accel0, accel1, accel2, accel3, sqr, accelerationLimit]

theorem init_error_pos : 0 < sqr (1200 / sqr (3.4641 : K)) - sqr 100 := by
  norm_num [sqr]

theorem fin_singleton_eq_zero {α : Type} (i : α) (j : Fin [i].length) : j = ⟨0, by simp⟩ := by
  apply Fin.ext
  have := j.isLt
  simp at this
  simp [this]

theorem gram_singleton_apply (ce : Fin numConstraints → ConstraintEval K)
    (i : Fin numConstraints) (j k : Fin [i].length) :
    gramMatrix ce [i] j k = (ce i).deriv ⬝ᵥ (ce i).deriv := by
  rw [fin_singleton_eq_zero i j, fin_singleton_eq_zero i k]
  simp [gramMatrix, gatherGradients, Matrix.mul_apply, Matrix.dotProduct]

theorem gatherErrors_singleton {K : Type} (ce : Fin numConstraints → ConstraintEval K)
    (i : Fin numConstraints) (j : Fin [i].length) : gatherErrors ce [i] j = (ce i).error := by
  rw [fin_singleton_eq_zero i j]
  simp [gatherErrors]

theorem transpose_mulVec_singleton (ce : Fin numConstraints → ConstraintEval K)
    (i : Fin numConstraints) (v : Fin [i].length → K) (k : Fin numVars) :
    ((gatherGradients ce [i])ᵀ *ᵥ v) k = (ce i).deriv k * v ⟨0, by simp⟩ := by
  simp only [gatherGradients, Matrix.mulVec, Matrix.dotProduct, Matrix.transpose_apply,
    Matrix.of_apply]
  show ∑ x : Fin 1, _ = _
  simp

theorem gatherGradients_singleton_mulVec (ce : Fin numConstraints → ConstraintEval K)
    (i : Fin numConstraints) (w : Fin numVars → K) (j : Fin [i].length) :
    (gatherGradients ce [i] *ᵥ w) j = (ce i).deriv ⬝ᵥ w := by
  rw [fin_singleton_eq_zero i j]
  simp [gatherGradients, Matrix.mulVec]

/-- The solver `pivotSolve` solves a `1 × 1` Gram system with a nonzero gradient exactly. -/
theorem pivotSolve_singleton_exact (ce : Fin numConstraints → ConstraintEval K)
    (i : Fin numConstraints) (b : Fin [i].length → K)
    (hd : (ce i).deriv ⬝ᵥ (ce i).deriv ≠ 0) :
    gramMatrix ce [i] *ᵥ pivotSolve [i].length (gramMatrix ce [i]) b = b := by
  funext j
  rw [gram_singleton_mulVec, ← fin_singleton_eq_zero i j]
  have hj : j.val = 0 := by rw [fin_singleton_eq_zero i j]
  simp only [pivotSolve, gram_singleton_apply, hj, if_true]
  generalize (ce i).deriv ⬝ᵥ (ce i).deriv = d at hd ⊢
  field_simp

theorem violatedConstraints_eq_singleton (ce : Fin numConstraints → ConstraintEval K)
    (i : Fin numConstraints) (hviol : 0 < (ce i).error)
    (hothers : ∀ j, j ≠ i → (ce j).error ≤ 0) : violatedConstraints ce = [i] := by
  have hp : ∀ j, decide ((ce j).error > 0) = decide (j = i) := by
    intro j
    by_cases hj : j = i
    · subst hj; simp [hviol]
    · simp [hj, hothers j hj]
  simp only [violatedConstraints, finRange_numConstraints, hp]
  fin_cases i <;> rfl


/-- The four errors on `oneViolatedTraj`: 12500, -10000, -7696 and -9676. -/
theorem oneViolatedTraj_errors :
    (evalConstraints oneViolatedTraj 0).error = 12500 ∧
      (evalConstraints oneViolatedTraj 1).error = -10000 ∧
      (evalConstraints oneViolatedTraj 2).error = -7696 ∧
      (evalConstraints oneViolatedTraj 3).error = -9676 := by
  refine ⟨?_, ?_, ?_, ?_⟩ <;>
    norm_num [evalConstraints, constraints, evalConstraint0, evalConstraint1, evalConstraint2,
      evalConstraint3, accel0, accel1, accel2, accel3, sqr, accelerationLimit, oneViolatedTraj]

theorem oneViolatedTraj_others (b : ℚ) (hb : -7696 ≤ b) (j : Fin numConstraints)
    (hj : j ≠ 0) : (evalConstraints oneViolatedTraj j).error ≤ b := by
  obtain ⟨_, e1, e2, e3⟩ := oneViolatedTraj_errors
  fin_cases j
  · exact absurd rfl hj
  · exact e1.trans_le (by linarith)
  · exact e2.trans_le hb
  · exact e3.trans_le (by linarith)

theorem oneViolatedTraj_violated :
    violatedConstraints (evalConstraints oneViolatedTraj) = [0] :=
  violatedConstraints_eq_singleton _ 0 (by rw [oneViolatedTraj_errors.1]; norm_num)
    (oneViolatedTraj_others 0 (by norm_num))

theorem oneViolatedTraj_gradient_ne_zero :
    (evalConstraints oneViolatedTraj 0).deriv ⬝ᵥ (evalConstraints oneViolatedTraj 0).deriv ≠
      0 := by
  have h := (gradient_normSq_pos oneViolatedTraj 0 (by norm_num [oneViolatedTraj])
    (by norm_num [oneViolatedTraj])
    (by have := oneViolatedTraj_errors.1
        simp only [evalConstraints] at this
        rw [this]; norm_num)).ne'
  simpa only [Matrix.dotProduct, sqr, evalConstraints] using h

/-- On `oneViolatedTraj` the solver `pivotSolve` returns a least-squares solution of the
system of `moveTowardFeasibility`. -/
theorem oneViolatedTraj_feasibility_leastSquares :
    IsLeastSquares
      (gramMatrix (evalConstraints oneViolatedTraj)
        (violatedConstraints (evalConstraints oneViolatedTraj)))
      (gatherErrors (evalConstraints oneViolatedTraj)
        (violatedConstraints (evalConstraints oneViolatedTraj)))
      (feasibilityMultipliers pivotSolve (evalConstraints oneViolatedTraj)
        (violatedConstraints (evalConstraints oneViolatedTraj))) := by
  rw [oneViolatedTraj_violated]
  exact isLeastSquares_of_exact _ _ _
    (pivotSolve_singleton_exact _ 0 _ oneViolatedTraj_gradient_ne_zero)

theorem violatedConstraints_eq_nil (ce : Fin numConstraints → ConstraintEval K)
    (h : ∀ i, (ce i).error ≤ 0) : violatedConstraints ce = [] := by
  simp only [violatedConstraints, List.filter_eq_nil_iff]
  intro i _
  simpa using h i

theorem proportionalTraj_errors :
    (evalConstraints proportionalTraj 0).error = 52500 ∧
      (evalConstraints proportionalTraj 1).error = 30000 ∧
      (evalConstraints proportionalTraj 2).error = -7696 ∧
      (evalConstraints proportionalTraj 3).error = -9676 := by
  refine ⟨?_, ?_, ?_, ?_⟩ <;>
    norm_num [evalConstraints, constraints, evalConstraint0, evalConstraint1, evalConstraint2,
      evalConstraint3, accel0, accel1, accel2, accel3, sqr, accelerationLimit, proportionalTraj]

theorem proportionalTraj_deriv :
    (evalConstraints proportionalTraj 0).deriv = ![12500, 0, 500] ∧
      (evalConstraints proportionalTraj 1).deriv = ![20000, 0, 800] := by
  refine ⟨?_, ?_⟩ <;>
    norm_num [evalConstraints, constraints, evalConstraint0, evalConstraint1, accel0, accel1,
      sqr, proportionalTraj]

theorem proportionalTraj_active :
    activeConstraints (evalConstraints proportionalTraj) = [0, 1] := by
  obtain ⟨e0, e1, e2, e3⟩ := proportionalTraj_errors
  have p0 : (!decide ((evalConstraints proportionalTraj 0).error ≤ -1.0e-4)) = true := by
    rw [e0]; norm_num
  have p1 : (!decide ((evalConstraints proportionalTraj 1).error ≤ -1.0e-4)) = true := by
    rw [e1]; norm_num
  have p2 : (!decide ((evalConstraints proportionalTraj 2).error ≤ -1.0e-4)) = false := by
    rw [e2]; norm_num
  have p3 : (!decide ((evalConstraints proportionalTraj 3).error ≤ -1.0e-4)) = false := by
    rw [e3]; norm_num
  simp only [activeConstraints, finRange_numConstraints, List.filter_cons, List.filter_nil,
    p0, p1, p2, p3, if_true]
  rfl

theorem fin_pair_cases {α : Type} (a b : α) (P : Fin [a, b].length → Prop)
    (h0 : P ⟨0, by simp⟩) (h1 : P ⟨1, by simp⟩) (j : Fin [a, b].length) : P j := by
  obtain ⟨v, hv⟩ := j
  have hv' : v < 2 := by simpa using hv
  interval_cases v
  · exact h0
  · exact h1

theorem proportionalTraj_gram_mulVec (x : Fin [(0 : Fin numConstraints), 1].length → ℚ)
    (j : Fin [(0 : Fin numConstraints), 1].length) :
    (gramMatrix (evalConstraints proportionalTraj) [0, 1] *ᵥ x) j =
      (if j.val = 0 then 1 else 8 / 5) *
        (156500000 * x ⟨0, by simp⟩ + 250400000 * x ⟨1, by simp⟩) := by
  obtain ⟨d0, d1⟩ := proportionalTraj_deriv
  simp only [gramMatrix, gatherGradients, Matrix.mulVec, Matrix.dotProduct, Matrix.mul_apply,
    Matrix.transpose_apply, Matrix.of_apply]
  show ∑ k : Fin 2, _ = _
  revert j
  apply fin_pair_cases
  · simp [Fin.sum_univ_succ, d0, d1]; ring
  · simp [Fin.sum_univ_succ, d0, d1]; ring


theorem proportionalTraj_projectionRhs (j : Fin [(0 : Fin numConstraints), 1].length) :
    projectionRhs (evalConstraints proportionalTraj) [0, 1] j =
      (if j.val = 0 then 1 else 8 / 5) * 8838.8375 := by
  obtain ⟨d0, d1⟩ := proportionalTraj_deriv
  simp only [projectionRhs, gatherGradients, Matrix.mulVec, Matrix.dotProduct, Matrix.of_apply,
    Pi.neg_apply, objectiveDir, Fin.sum_univ_three]
  revert j
  apply fin_pair_cases
  · simp [d0]; norm_num
  · simp [d1]; norm_num

theorem proportionalTraj_gram_zero_zero :
    gramMatrix (evalConstraints proportionalTraj) [0, 1] ⟨0, by simp⟩ ⟨0, by simp⟩ =
      156500000 := by
  obtain ⟨d0, _⟩ := proportionalTraj_deriv
  simp [gramMatrix, gatherGradients, Matrix.mul_apply, Fin.sum_univ_three, d0]
  norm_num

/-- On `proportionalTraj` the Gram matrix of the active set is singular. -/
theorem proportionalTraj_gram_singular :
    gramMatrix (evalConstraints proportionalTraj) [0, 1] *ᵥ
      (fun j => if j.val = 0 then 8 else -5) = 0 := by
  funext j
  rw [proportionalTraj_gram_mulVec]
  norm_num

/-- On `proportionalTraj` the solver `pivotSolve` returns a least-squares solution of the
singular system of `moveInConstrainedGradientDir`. -/
theorem proportionalTraj_projection_leastSquares :
    IsLeastSquares
      (gramMatrix (evalConstraints proportionalTraj)
        (activeConstraints (evalConstraints proportionalTraj)))
      (projectionRhs (evalConstraints proportionalTraj)
        (activeConstraints (evalConstraints proportionalTraj)))
      (projectionMultipliers pivotSolve (evalConstraints proportionalTraj)
        (activeConstraints (evalConstraints proportionalTraj))) := by
  rw [proportionalTraj_active]
  apply isLeastSquares_of_exact
  funext j
  rw [proportionalTraj_gram_mulVec, proportionalTraj_projectionRhs]
  simp only [projectionMultipliers, pivotSolve, proportionalTraj_gram_zero_zero,
    proportionalTraj_projectionRhs]
  norm_num

theorem initDurationSlope_ne_zero : (initDurationSlope : K) ≠ 0 := by
  norm_num [initDurationSlope, sqr]

/-- The gradients on the trajectory of `init`: each has `initDurationSlope` in the slot of
the duration it reads and zero in the slot of the other duration. -/
theorem init_deriv_duration :
    (evalConstraints (init : Trajectory K) 0).deriv 0 = initDurationSlope ∧
      (evalConstraints (init : Trajectory K) 1).deriv 0 = initDurationSlope ∧
      (evalConstraints (init : Trajectory K) 2).deriv 1 = initDurationSlope ∧
      (evalConstraints (init : Trajectory K) 3).deriv 1 = initDurationSlope := by
  rw [init_eq_ofValues]
  refine ⟨?_, ?_, ?_, ?_⟩ <;>
    norm_num [evalConstraints, constraints, evalConstraint0, evalConstraint1, evalConstraint2,
      evalConstraint3, accel0, accel1, accel2, accel3, sqr, initDurationSlope]

theorem init_deriv_other_duration :
    (evalConstraints (init : Trajectory K) 0).deriv 1 = 0 ∧
      (evalConstraints (init : Trajectory K) 1).deriv 1 = 0 ∧
      (evalConstraints (init : Trajectory K) 2).deriv 0 = 0 ∧
      (evalConstraints (init : Trajectory K) 3).deriv 0 = 0 := by
  refine ⟨?_, ?_, ?_, ?_⟩ <;>
    simp [evalConstraints, constraints, evalConstraint0, evalConstraint1, evalConstraint2,
      evalConstraint3]

/-- If every error is the dot product of its gradient with `z`, the selected errors are
the selected gradients applied to `z`. -/
theorem gatherErrors_eq_mulVec (ce : Fin numConstraints → ConstraintEval K)
    (z : Fin numVars → K) (h : ∀ i, (ce i).error = (ce i).deriv ⬝ᵥ z)
    (l : List (Fin numConstraints)) : gatherErrors ce l = gatherGradients ce l *ᵥ z := by
  funext j
  simp only [gatherErrors, gatherGradients, Matrix.mulVec, Matrix.of_apply]
  exact h (l.get j)

/-- On the trajectory of `init` each error is the dot product of its gradient with one
fixed vector, so the vector of errors lies in the range of the gradient matrix. -/
theorem init_errors_in_range (i : Fin numConstraints) :
    (evalConstraints (init : Trajectory K) i).error =
      (evalConstraints (init : Trajectory K) i).deriv ⬝ᵥ
        ![(sqr (1200 / sqr 3.4641) - sqr 100) / initDurationSlope,
          (sqr (1200 / sqr 3.4641) - sqr 100) / initDurationSlope, 0] := by
  obtain ⟨a0, a1, a2, a3⟩ := init_deriv_duration (K := K)
  obtain ⟨b0, b1, b2, b3⟩ := init_deriv_other_duration (K := K)
  have hP := initDurationSlope_ne_zero (K := K)
  rw [init_error]
  simp only [Matrix.dotProduct, Fin.sum_univ_three, Matrix.cons_val_zero, Matrix.cons_val_one,
    Matrix.cons_val_two, Matrix.head_cons, Matrix.tail_cons, mul_zero, add_zero]
  fin_cases i
  · change _ = (evalConstraints (init : Trajectory K) 0).deriv 0 * _ +
      (evalConstraints (init : Trajectory K) 0).deriv 1 * _
    rw [a0, b0]; field_simp
  · change _ = (evalConstraints (init : Trajectory K) 1).deriv 0 * _ +
      (evalConstraints (init : Trajectory K) 1).deriv 1 * _
    rw [a1, b1]; field_simp
  · change _ = (evalConstraints (init : Trajectory K) 2).deriv 0 * _ +
      (evalConstraints (init : Trajectory K) 2).deriv 1 * _
    rw [a2, b2]; field_simp
  · change _ = (evalConstraints (init : Trajectory K) 3).deriv 0 * _ +
      (evalConstraints (init : Trajectory K) 3).deriv 1 * _
    rw [a3, b3]; field_simp

/-- With a solve that returns a least-squares solution, `moveTowardFeasibility` changes the
trajectory of `init`. -/
theorem init_moveTowardFeasibility_changes (solve : Solver K)
    (hsolve : IsLeastSquares
      (gramMatrix (evalConstraints (init : Trajectory K))
        (violatedConstraints (evalConstraints (init : Trajectory K))))
      (gatherErrors (evalConstraints (init : Trajectory K))
        (violatedConstraints (evalConstraints (init : Trajectory K))))
      (feasibilityMultipliers solve (evalConstraints (init : Trajectory K))
        (violatedConstraints (evalConstraints (init : Trajectory K))))) :
    moveTowardFeasibility solve (init : Trajectory K) ≠ init := by
  have hviol : violatedConstraints (evalConstraints (init : Trajectory K)) = [0, 1, 2, 3] := by
    simp only [violatedConstraints, finRange_numConstraints, init_error]
    simp [init_error_pos (K := K)]
  intro hsame
  have hstep : feasibilityStep solve (evalConstraints (init : Trajectory K))
      (violatedConstraints (evalConstraints (init : Trajectory K))) = 0 := by
    funext k
    have h1 := addStep_var_free (init : Trajectory K)
      (feasibilityStep solve (evalConstraints (init : Trajectory K))
        (violatedConstraints (evalConstraints (init : Trajectory K)))) k
    have h2 : (moveTowardFeasibility solve (init : Trajectory K)).var (freeVar k) =
        (init : Trajectory K).var (freeVar k) := by rw [hsame]
    simp only [moveTowardFeasibility] at h2
    rw [h1] at h2
    simpa using h2
  rw [hviol] at hsolve hstep
  have hrange := gatherErrors_eq_mulVec (evalConstraints (init : Trajectory K)) _
    init_errors_in_range [0, 1, 2, 3]
  have hexact := gram_exact_of_isLeastSquares _ _ _ (hrange ▸ hsolve)
  have hlen : [(0 : Fin numConstraints), 1, 2, 3].length > 0 := by simp
  simp only [feasibilityStep, hlen, if_true, Matrix.mulVec_neg, neg_eq_zero] at hstep
  rw [← Matrix.mulVec_mulVec, hstep, Matrix.mulVec_zero, ← hrange] at hexact
  have h0 := congrFun hexact ⟨0, by simp⟩
  simp only [gatherErrors, Pi.zero_apply] at h0
  rw [init_error] at h0
  exact (init_error_pos (K := K)).ne h0

theorem slowTraj_feasible : ∀ i, (evalConstraints slowTraj i).error ≤ 0 := by
  intro i
  fin_cases i <;>
    norm_num [evalConstraints, constraints, evalConstraint0, evalConstraint1, evalConstraint2,
      evalConstraint3, accel0, accel1, accel2, accel3, sqr, accelerationLimit, slowTraj]

end Lemmas

/-! ## Claims -/

section Claims

variable {K : Type} [LinearOrderedField K]

/-- C1. When all four constraint errors are at most 0, `moveTowardFeasibility` selects no
constraint, its step `dX` is the zero vector, and all eight entries of the trajectory are
the same after the call as before it. -/
theorem moveTowardFeasibility_feasible_unchanged (solve : Solver K) (traj : Trajectory K)
    (hfeas : ∀ i, (evalConstraints traj i).error ≤ 0) :
    violatedConstraints (evalConstraints traj) = [] ∧
      feasibilityStep solve (evalConstraints traj)
        (violatedConstraints (evalConstraints traj)) = 0 ∧
      ∀ i : Fin M, (moveTowardFeasibility solve traj).var i = traj.var i := by
  have hnil := violatedConstraints_eq_nil (evalConstraints traj) hfeas
  refine ⟨hnil, ?_, ?_⟩
  · rw [hnil]; simp [feasibilityStep]
  · intro i
    simp only [moveTowardFeasibility, hnil]
    simp [feasibilityStep, addStep]

/-- Witness of C1 on the feasible sample `slowTraj`. -/
theorem moveTowardFeasibility_feasible_unchanged_witness :
    (∀ i, (evalConstraints slowTraj i).error ≤ 0) ∧
      violatedConstraints (evalConstraints slowTraj) = [] ∧
      feasibilityStep pivotSolve (evalConstraints slowTraj)
        (violatedConstraints (evalConstraints slowTraj)) = 0 ∧
      ∀ i : Fin M, (moveTowardFeasibility pivotSolve slowTraj).var i = slowTraj.var i :=
  ⟨slowTraj_feasible,
    moveTowardFeasibility_feasible_unchanged pivotSolve slowTraj slowTraj_feasible⟩

/-- C2. `moveTowardFeasibility`, `moveInConstrainedGradientDir` and `fixupConstraint` (for
each of the four constraints) leave the fixed parameters `pos0`, `vel0`, `pos1`, `pos2`
and `vel2` at the value they had before the call. -/
theorem steps_preserve_fixed_parameters (sqrt : K → K) (solve : Solver K)
    (traj : Trajectory K) (c : Fin numConstraints) :
    SameFixed traj (moveTowardFeasibility solve traj) ∧
      SameFixed traj (moveInConstrainedGradientDir sqrt solve traj) ∧
      SameFixed traj (fixupConstraint traj (constraints c)) := by
  refine ⟨addStep_sameFixed _ _, addStep_sameFixed _ _, ?_, ?_, ?_, ?_, ?_⟩ <;>
    exact fixupConstraint_var_fixed _ _ _ (by decide)

/-- C3. For a trajectory with nonzero durations and a constraint whose error is positive,
the `vel1X` entry of the gradient is not zero, so the divisor `‖gradient‖²` of
`fixupConstraint` is not zero; the call changes the free variables by
`delta = -gradient * (error / ‖gradient‖²)`, and that step cancels the first-order error:
`error + gradient · delta = 0`. -/
theorem fixupConstraint_cancels_first_order (traj : Trajectory K) (c : Fin numConstraints)
    (h0 : traj.var duration0 ≠ 0) (h1 : traj.var duration1 ≠ 0)
    (hviol : 0 < (constraints c traj).error) :
    (constraints c traj).deriv 2 ≠ 0 ∧
      (∑ i : Fin numVars, sqr ((constraints c traj).deriv i)) ≠ 0 ∧
      (∀ k : Fin numVars, (fixupConstraint traj (constraints c)).var (freeVar k) =
        traj.var (freeVar k) + fixupDelta (constraints c traj) k) ∧
      (constraints c traj).error +
        (constraints c traj).deriv ⬝ᵥ fixupDelta (constraints c traj) = 0 := by
  have hd := (gradient_normSq_pos traj c h0 h1 hviol).ne'
  exact ⟨deriv_vel1X_ne_zero traj c h0 h1 hviol, hd, fixupConstraint_var_free traj _ hviol,
    error_add_dot_fixupDelta _ hd⟩

/-- Witness of C3: constraint 0 on `oneViolatedTraj`. -/
theorem fixupConstraint_cancels_first_order_witness :
    oneViolatedTraj.var duration0 ≠ 0 ∧ oneViolatedTraj.var duration1 ≠ 0 ∧
      0 < (constraints 0 oneViolatedTraj).error ∧
      (constraints 0 oneViolatedTraj).deriv 2 ≠ 0 ∧
      (∑ i : Fin numVars, sqr ((constraints 0 oneViolatedTraj).deriv i)) ≠ 0 ∧
      (∀ k : Fin numVars,
        (fixupConstraint oneViolatedTraj (constraints 0)).var (freeVar k) =
          oneViolatedTraj.var (freeVar k) + fixupDelta (constraints 0 oneViolatedTraj) k) ∧
      (constraints 0 oneViolatedTraj).error +
        (constraints 0 oneViolatedTraj).deriv ⬝ᵥ
          fixupDelta (constraints 0 oneViolatedTraj) = 0 :=
  ⟨by norm_num [oneViolatedTraj], by norm_num [oneViolatedTraj],
    by norm_num [constraints, evalConstraint0, accel0, sqr, accelerationLimit, oneViolatedTraj],
    fixupConstraint_cancels_first_order oneViolatedTraj 0
      (by norm_num [oneViolatedTraj]) (by norm_num [oneViolatedTraj])
      (by norm_num [constraints, evalConstraint0, accel0, sqr, accelerationLimit,
        oneViolatedTraj])⟩

/-- C4. Let `x`, the vector returned by the solve in `moveInConstrainedGradientDir`, be a
least-squares solution of `(g gᵀ) x = -(g obj)`. Then the applied step is
`w / max(1/1024, sqrt(w · w))` with `w = obj + gᵀ x`, and for every constraint that was
active before the step (`error > -1e-4`) the gradient is orthogonal to the applied step:
`gradient · step = 0`, hence `gradient · step ≤ 0` and the first-order predicted error
`error + gradient · step` does not exceed the error. Nothing is assumed about the rank of
`g gᵀ` or about the square-root routine. -/
theorem constrained_step_keeps_active_errors (sqrt : K → K) (solve : Solver K)
    (traj : Trajectory K)
    (hsolve : IsLeastSquares
      (gramMatrix (evalConstraints traj) (activeConstraints (evalConstraints traj)))
      (projectionRhs (evalConstraints traj) (activeConstraints (evalConstraints traj)))
      (projectionMultipliers solve (evalConstraints traj)
        (activeConstraints (evalConstraints traj))))
    (i : Fin numConstraints) (hact : -1.0e-4 < (evalConstraints traj i).error) :
    appliedStep traj (moveInConstrainedGradientDir sqrt solve traj) =
        (fun k =>
          correctedObjective solve (evalConstraints traj)
              (activeConstraints (evalConstraints traj)) k /
            max (1 / 1024)
              (sqrt (correctedObjective solve (evalConstraints traj)
                  (activeConstraints (evalConstraints traj)) ⬝ᵥ
                correctedObjective solve (evalConstraints traj)
                  (activeConstraints (evalConstraints traj))))) ∧
      (evalConstraints traj i).deriv ⬝ᵥ
          appliedStep traj (moveInConstrainedGradientDir sqrt solve traj) = 0 ∧
      (evalConstraints traj i).deriv ⬝ᵥ
          appliedStep traj (moveInConstrainedGradientDir sqrt solve traj) ≤ 0 ∧
      (evalConstraints traj i).error + (evalConstraints traj i).deriv ⬝ᵥ
          appliedStep traj (moveInConstrainedGradientDir sqrt solve traj) ≤
        (evalConstraints traj i).error := by
  generalize hce : evalConstraints traj = ce at hsolve hact ⊢
  have hmem : i ∈ activeConstraints ce := by
    simp [activeConstraints, List.mem_filter, List.mem_finRange, hact]
  have hlen : (activeConstraints ce).length > 0 := List.length_pos_of_mem hmem
  have hstep : appliedStep traj (moveInConstrainedGradientDir sqrt solve traj) =
      constrainedObjective sqrt solve ce (activeConstraints ce) := by
    funext k
    simp [appliedStep, moveInConstrainedGradientDir, addStep_var_free, hce]
  have hobj : constrainedObjective sqrt solve ce (activeConstraints ce) =
      fun k => correctedObjective solve ce (activeConstraints ce) k /
        max (1 / 1024) (sqrt (correctedObjective solve ce (activeConstraints ce) ⬝ᵥ
          correctedObjective solve ce (activeConstraints ce))) := by
    simp only [constrainedObjective, hlen, if_true]
  -- the corrected direction is orthogonal to every selected gradient
  have hexact := gram_exact_of_isLeastSquares (gatherGradients ce (activeConstraints ce))
    (-objectiveDir) (projectionMultipliers solve ce (activeConstraints ce))
    (by simpa only [gramMatrix, projectionRhs, Matrix.mulVec_neg] using hsolve)
  have hzero : gatherGradients ce (activeConstraints ce) *ᵥ
      correctedObjective solve ce (activeConstraints ce) = 0 := by
    rw [correctedObjective, Matrix.mulVec_add, Matrix.mulVec_mulVec, hexact,
      Matrix.mulVec_neg, add_neg_cancel]
  obtain ⟨j, hj⟩ := List.mem_iff_get.mp hmem
  have hdot : (ce i).deriv ⬝ᵥ correctedObjective solve ce (activeConstraints ce) = 0 := by
    have := congrFun hzero j
    simpa only [Matrix.mulVec, gatherGradients, Matrix.of_apply, hj, Pi.zero_apply] using this
  have hscaled : (ce i).deriv ⬝ᵥ
      appliedStep traj (moveInConstrainedGradientDir sqrt solve traj) = 0 := by
    rw [hstep, hobj]
    simp only [Matrix.dotProduct, mul_div_assoc', ← Finset.sum_div] at hdot ⊢
    rw [hdot, zero_div]
  exact ⟨hstep.trans hobj, hscaled, hscaled.le, by rw [hscaled, add_zero]⟩

/-- Witness of C4 on `proportionalTraj` with the solver `pivotSolve`: constraints 0 and 1
are active, their Gram matrix is singular (it annihilates the vector `(8, -5)`), and the
gradient of constraint 1 is orthogonal to the applied step. -/
theorem constrained_step_keeps_active_errors_witness :
    activeConstraints (evalConstraints proportionalTraj) = [0, 1] ∧
      gramMatrix (evalConstraints proportionalTraj) [0, 1] *ᵥ
        (fun j => if j.val = 0 then 8 else -5) = 0 ∧
      IsLeastSquares
        (gramMatrix (evalConstraints proportionalTraj)
          (activeConstraints (evalConstraints proportionalTraj)))
        (projectionRhs (evalConstraints proportionalTraj)
          (activeConstraints (evalConstraints proportionalTraj)))
        (projectionMultipliers pivotSolve (evalConstraints proportionalTraj)
          (activeConstraints (evalConstraints proportionalTraj))) ∧
      -1.0e-4 < (evalConstraints proportionalTraj 1).error ∧
      (evalConstraints proportionalTraj 1).deriv ⬝ᵥ
        appliedStep proportionalTraj
          (moveInConstrainedGradientDir floorSqrt pivotSolve proportionalTraj) = 0 :=
  have ha : -1.0e-4 < (evalConstraints proportionalTraj 1).error := by
    rw [proportionalTraj_errors.2.1]; norm_num
  ⟨proportionalTraj_active, proportionalTraj_gram_singular,
    proportionalTraj_projection_leastSquares, ha,
    (constrained_step_keeps_active_errors floorSqrt pivotSolve proportionalTraj
      proportionalTraj_projection_leastSquares 1 ha).2.1⟩

/-- C5. For a trajectory with nonzero durations in which constraint `i` alone has a positive
error, and a solve that returns a least-squares solution of its `1 × 1` system, the only
selected constraint is `i`, the step `dX` applied by `moveTowardFeasibility` is
`-gradient_i * error_i / (gradient_i · gradient_i)`, and the first-order predicted error
`error_i + gradient_i · dX` equals 0, which is strictly smaller than `error_i`. -/
theorem single_violation_step (solve : Solver K) (traj : Trajectory K) (i : Fin numConstraints)
    (h0 : traj.var duration0 ≠ 0) (h1 : traj.var duration1 ≠ 0)
    (hviol : 0 < (evalConstraints traj i).error)
    (hothers : ∀ j, j ≠ i → (evalConstraints traj j).error ≤ 0)
    (hsolve : IsLeastSquares
      (gramMatrix (evalConstraints traj) (violatedConstraints (evalConstraints traj)))
      (gatherErrors (evalConstraints traj) (violatedConstraints (evalConstraints traj)))
      (feasibilityMultipliers solve (evalConstraints traj)
        (violatedConstraints (evalConstraints traj)))) :
    violatedConstraints (evalConstraints traj) = [i] ∧
      feasibilityStep solve (evalConstraints traj)
          (violatedConstraints (evalConstraints traj)) =
        (fun k => -((evalConstraints traj i).deriv k) * (evalConstraints traj i).error /
          ((evalConstraints traj i).deriv ⬝ᵥ (evalConstraints traj i).deriv)) ∧
      appliedStep traj (moveTowardFeasibility solve traj) =
        feasibilityStep solve (evalConstraints traj)
          (violatedConstraints (evalConstraints traj)) ∧
      (evalConstraints traj i).error + (evalConstraints traj i).deriv ⬝ᵥ
          feasibilityStep solve (evalConstraints traj)
            (violatedConstraints (evalConstraints traj)) = 0 ∧
      (evalConstraints traj i).error + (evalConstraints traj i).deriv ⬝ᵥ
          feasibilityStep solve (evalConstraints traj)
            (violatedConstraints (evalConstraints traj)) <
        (evalConstraints traj i).error := by
  have hd : (evalConstraints traj i).deriv ⬝ᵥ (evalConstraints traj i).deriv ≠ 0 := by
    have := (gradient_normSq_pos traj i h0 h1 hviol).ne'
    simpa only [Matrix.dotProduct, sqr, evalConstraints] using this
  have hstep : appliedStep traj (moveTowardFeasibility solve traj) =
      feasibilityStep solve (evalConstraints traj)
        (violatedConstraints (evalConstraints traj)) := by
    funext k
    simp [appliedStep, moveTowardFeasibility, addStep_var_free]
  generalize evalConstraints traj = ce at hviol hothers hsolve hd hstep ⊢
  have hidx := violatedConstraints_eq_singleton ce i hviol hothers
  rw [hidx] at hsolve hstep ⊢
  have hm := exact_of_isLeastSquares_of_solvable _ _ _
    (fun _ => (ce i).error / ((ce i).deriv ⬝ᵥ (ce i).deriv)) (by
      funext j
      rw [gram_singleton_mulVec, gatherErrors_singleton]
      generalize (ce i).deriv ⬝ᵥ (ce i).deriv = d at hd ⊢
      field_simp) hsolve
  have hm0 : feasibilityMultipliers solve ce [i] ⟨0, by simp⟩ =
      (ce i).error / ((ce i).deriv ⬝ᵥ (ce i).deriv) := by
    have := congrFun hm ⟨0, by simp⟩
    rw [gram_singleton_mulVec, gatherErrors_singleton] at this
    rw [eq_div_iff hd, mul_comm]
    exact this
  have hdX : feasibilityStep solve ce [i] =
      fun k => -((ce i).deriv k) * (ce i).error / ((ce i).deriv ⬝ᵥ (ce i).deriv) := by
    funext k
    have hpos : [i].length > 0 := by simp
    simp only [feasibilityStep, hpos, if_true]
    rw [transpose_mulVec_singleton, Pi.neg_apply, hm0]
    ring
  have hcancel : (ce i).error + (ce i).deriv ⬝ᵥ feasibilityStep solve ce [i] = 0 := by
    rw [hdX]
    simp only [Matrix.dotProduct, Fin.sum_univ_three] at hd ⊢
    field_simp
    ring
  exact ⟨rfl, hdX, hstep, hcancel, by rw [hcancel]; exact hviol⟩

/-- Witness of C5 on `oneViolatedTraj` with the solver `pivotSolve`. -/
theorem single_violation_step_witness :
    oneViolatedTraj.var duration0 ≠ 0 ∧ oneViolatedTraj.var duration1 ≠ 0 ∧
      0 < (evalConstraints oneViolatedTraj 0).error ∧
      (∀ j, j ≠ 0 → (evalConstraints oneViolatedTraj j).error ≤ 0) ∧
      appliedStep oneViolatedTraj (moveTowardFeasibility pivotSolve oneViolatedTraj) =
        (fun k => -((evalConstraints oneViolatedTraj 0).deriv k) *
          (evalConstraints oneViolatedTraj 0).error /
          ((evalConstraints oneViolatedTraj 0).deriv ⬝ᵥ
            (evalConstraints oneViolatedTraj 0).deriv)) :=
  have h0 : oneViolatedTraj.var duration0 ≠ 0 := by norm_num [oneViolatedTraj]
  have h1 : oneViolatedTraj.var duration1 ≠ 0 := by norm_num [oneViolatedTraj]
  have hv : 0 < (evalConstraints oneViolatedTraj 0).error := by
    rw [oneViolatedTraj_errors.1]; norm_num
  have ho : ∀ j, j ≠ 0 → (evalConstraints oneViolatedTraj j).error ≤ 0 :=
    oneViolatedTraj_others 0 (by norm_num)
  have h := single_violation_step pivotSolve oneViolatedTraj 0 h0 h1 hv ho
    oneViolatedTraj_feasibility_leastSquares
  ⟨h0, h1, hv, ho, h.2.2.1.trans h.2.1⟩

/-- C6. For each constraint and each free variable, the entry of `deriv` written by the
constraint function is the derivative of the returned error, as a real function of that
free variable with the rest of the trajectory held fixed, provided the duration the
constraint reads is not zero. The `duration1` entry of constraints 0 and 1 and the
`duration0` entry of constraints 2 and 3 are zero. -/
theorem constraint_deriv_is_partial_derivative (traj : Trajectory ℝ)
    (c : Fin numConstraints) (hdur : traj.var (relevantDuration c) ≠ 0) :
    (∀ k : Fin numVars,
        HasDerivAt (fun x : ℝ => (constraints c (traj.set (freeVar k) x)).error)
          ((constraints c traj).deriv k) (traj.var (freeVar k))) ∧
      (evalConstraint0 traj).deriv 1 = 0 ∧ (evalConstraint1 traj).deriv 1 = 0 ∧
      (evalConstraint2 traj).deriv 0 = 0 ∧ (evalConstraint3 traj).deriv 0 = 0 := by
  refine ⟨?_, by simp [evalConstraint0], by simp [evalConstraint1],
    by simp [evalConstraint2], by simp [evalConstraint3]⟩
  intro k
  fin_cases c <;> fin_cases k
  · change traj.var duration0 ≠ 0 at hdur
    change HasDerivAt (fun x : ℝ => (evalConstraint0 (traj.set duration0 x)).error)
      ((evalConstraint0 traj).deriv 0) (traj.var duration0)
    simp only [evalConstraint0, accel0, set_var, duration0, duration1, vel1X, pos0X, vel0X,
      pos1X, pos2X, vel2X] at hdur ⊢
    simp only [Fin.isValue, Fin.reduceEq, if_true, if_false, Matrix.cons_val_zero,
      Matrix.cons_val_one, Matrix.cons_val_two, Matrix.head_cons, Matrix.tail_cons]
    convert hasDerivAt_sqr_accel_duration ((traj.var 5 - traj.var 3) * 6) (traj.var 4 * -4 + traj.var 2 * -2)
      (sqr accelerationLimit) (traj.var 0) hdur using 1
    · funext x; simp only [sqr]; ring
    · simp only [sqr]; ring
  · change traj.var duration0 ≠ 0 at hdur
    change HasDerivAt (fun x : ℝ => (evalConstraint0 (traj.set duration1 x)).error)
      ((evalConstraint0 traj).deriv 1) (traj.var duration1)
    simp only [evalConstraint0, accel0, set_var, duration0, duration1, vel1X, pos0X, vel0X,
      pos1X, pos2X, vel2X] at hdur ⊢
    simp only [Fin.isValue, Fin.reduceEq, if_true, if_false, Matrix.cons_val_zero,
      Matrix.cons_val_one, Matrix.cons_val_two, Matrix.head_cons, Matrix.tail_cons]
    exact hasDerivAt_const _ _
  · change traj.var duration0 ≠ 0 at hdur
    change HasDerivAt (fun x : ℝ => (evalConstraint0 (traj.set vel1X x)).error)
      ((evalConstraint0 traj).deriv 2) (traj.var vel1X)
    simp only [evalConstraint0, accel0, set_var, duration0, duration1, vel1X, pos0X, vel0X,
      pos1X, pos2X, vel2X] at hdur ⊢
    simp only [Fin.isValue, Fin.reduceEq, if_true, if_false, Matrix.cons_val_zero,
      Matrix.cons_val_one, Matrix.cons_val_two, Matrix.head_cons, Matrix.tail_cons]
    convert hasDerivAt_sqr_accel_velocity ((traj.var 5 - traj.var 3) * 6 / traj.var 0 + traj.var 4 * -4) (-2)
      (sqr accelerationLimit) (traj.var 0) (traj.var 2) using 1
    ring
  · change traj.var duration0 ≠ 0 at hdur
    change HasDerivAt (fun x : ℝ => (evalConstraint1 (traj.set duration0 x)).error)
      ((evalConstraint1 traj).deriv 0) (traj.var duration0)
    simp only [evalConstraint1, accel1, set_var, duration0, duration1, vel1X, pos0X, vel0X,
      pos1X, pos2X, vel2X] at hdur ⊢
    simp only [Fin.isValue, Fin.reduceEq, if_true, if_false, Matrix.cons_val_zero,
      Matrix.cons_val_one, Matrix.cons_val_two, Matrix.head_cons, Matrix.tail_cons]
    convert hasDerivAt_sqr_accel_duration ((traj.var 5 - traj.var 3) * -6) (traj.var 4 * 2 + traj.var 2 * 4)
      (sqr accelerationLimit) (traj.var 0) hdur using 1
    · funext x; simp only [sqr]; ring
    · simp only [sqr]; ring
  · change traj.var duration0 ≠ 0 at hdur
    change HasDerivAt (fun x : ℝ => (evalConstraint1 (traj.set duration1 x)).error)
      ((evalConstraint1 traj).deriv 1) (traj.var duration1)
    simp only [evalConstraint1, accel1, set_var, duration0, duration1, vel1X, pos0X, vel0X,
      pos1X, pos2X, vel2X] at hdur ⊢
    simp only [Fin.isValue, Fin.reduceEq, if_true, if_false, Matrix.cons_val_zero,
      Matrix.cons_val_one, Matrix.cons_val_two, Matrix.head_cons, Matrix.tail_cons]
    exact hasDerivAt_const _ _
  · change traj.var duration0 ≠ 0 at hdur
    change HasDerivAt (fun x : ℝ => (evalConstraint1 (traj.set vel1X x)).error)
      ((evalConstraint1 traj).deriv 2) (traj.var vel1X)
    simp only [evalConstraint1, accel1, set_var, duration0, duration1, vel1X, pos0X, vel0X,
      pos1X, pos2X, vel2X] at hdur ⊢
    simp only [Fin.isValue, Fin.reduceEq, if_true, if_false, Matrix.cons_val_zero,
      Matrix.cons_val_one, Matrix.cons_val_two, Matrix.head_cons, Matrix.tail_cons]
    convert hasDerivAt_sqr_accel_velocity ((traj.var 5 - traj.var 3) * -6 / traj.var 0 + traj.var 4 * 2) (4)
      (sqr accelerationLimit) (traj.var 0) (traj.var 2) using 1
    ring
  · change traj.var duration1 ≠ 0 at hdur
    change HasDerivAt (fun x : ℝ => (evalConstraint2 (traj.set duration0 x)).error)
      ((evalConstraint2 traj).deriv 0) (traj.var duration0)
    simp only [evalConstraint2, accel2, set_var, duration0, duration1, vel1X, pos0X, vel0X,
      pos1X, pos2X, vel2X] at hdur ⊢
    simp only [Fin.isValue, Fin.reduceEq, if_true, if_false, Matrix.cons_val_zero,
      Matrix.cons_val_one, Matrix.cons_val_two, Matrix.head_cons, Matrix.tail_cons]
    exact hasDerivAt_const _ _
  · change traj.var duration1 ≠ 0 at hdur
    change HasDerivAt (fun x : ℝ => (evalConstraint2 (traj.set duration1 x)).error)
      ((evalConstraint2 traj).deriv 1) (traj.var duration1)
    simp only [evalConstraint2, accel2, set_var, duration0, duration1, vel1X, pos0X, vel0X,
      pos1X, pos2X, vel2X] at hdur ⊢
    simp only [Fin.isValue, Fin.reduceEq, if_true, if_false, Matrix.cons_val_zero,
      Matrix.cons_val_one, Matrix.cons_val_two, Matrix.head_cons, Matrix.tail_cons]
    convert hasDerivAt_sqr_accel_duration ((traj.var 6 - traj.var 5) * 6) (traj.var 2 * -4 + traj.var 7 * -2)
      (sqr accelerationLimit) (traj.var 1) hdur using 1
    · funext x; simp only [sqr]; ring
    · simp only [sqr]; ring
  · change traj.var duration1 ≠ 0 at hdur
    change HasDerivAt (fun x : ℝ => (evalConstraint2 (traj.set vel1X x)).error)
      ((evalConstraint2 traj).deriv 2) (traj.var vel1X)
    simp only [evalConstraint2, accel2, set_var, duration0, duration1, vel1X, pos0X, vel0X,
      pos1X, pos2X, vel2X] at hdur ⊢
    simp only [Fin.isValue, Fin.reduceEq, if_true, if_false, Matrix.cons_val_zero,
      Matrix.cons_val_one, Matrix.cons_val_two, Matrix.head_cons, Matrix.tail_cons]
    convert hasDerivAt_sqr_accel_velocity ((traj.var 6 - traj.var 5) * 6 / traj.var 1 + traj.var 7 * -2) (-4)
      (sqr accelerationLimit) (traj.var 1) (traj.var 2) using 1
    all_goals first | (funext x; simp only [sqr]; ring) | ring
  · change traj.var duration1 ≠ 0 at hdur
    change HasDerivAt (fun x : ℝ => (evalConstraint3 (traj.set duration0 x)).error)
      ((evalConstraint3 traj).deriv 0) (traj.var duration0)
    simp only [evalConstraint3, accel3, set_var, duration0, duration1, vel1X, pos0X, vel0X,
      pos1X, pos2X, vel2X] at hdur ⊢
    simp only [Fin.isValue, Fin.reduceEq, if_true, if_false, Matrix.cons_val_zero,
      Matrix.cons_val_one, Matrix.cons_val_two, Matrix.head_cons, Matrix.tail_cons]
    exact hasDerivAt_const _ _
  · change traj.var duration1 ≠ 0 at hdur
    change HasDerivAt (fun x : ℝ => (evalConstraint3 (traj.set duration1 x)).error)
      ((evalConstraint3 traj).deriv 1) (traj.var duration1)
    simp only [evalConstraint3, accel3, set_var, duration0, duration1, vel1X, pos0X, vel0X,
      pos1X, pos2X, vel2X] at hdur ⊢
    simp only [Fin.isValue, Fin.reduceEq, if_true, if_false, Matrix.cons_val_zero,
      Matrix.cons_val_one, Matrix.cons_val_two, Matrix.head_cons, Matrix.tail_cons]
    convert hasDerivAt_sqr_accel_duration ((traj.var 6 - traj.var 5) * -6) (traj.var 2 * 2 + traj.var 7 * 4)
      (sqr accelerationLimit) (traj.var 1) hdur using 1
    · funext x; simp only [sqr]; ring
    · simp only [sqr]; ring
  · change traj.var duration1 ≠ 0 at hdur
    change HasDerivAt (fun x : ℝ => (evalConstraint3 (traj.set vel1X x)).error)
      ((evalConstraint3 traj).deriv 2) (traj.var vel1X)
    simp only [evalConstraint3, accel3, set_var, duration0, duration1, vel1X, pos0X, vel0X,
      pos1X, pos2X, vel2X] at hdur ⊢
    simp only [Fin.isValue, Fin.reduceEq, if_true, if_false, Matrix.cons_val_zero,
      Matrix.cons_val_one, Matrix.cons_val_two, Matrix.head_cons, Matrix.tail_cons]
    convert hasDerivAt_sqr_accel_velocity ((traj.var 6 - traj.var 5) * -6 / traj.var 1 + traj.var 7 * 4) (2)
      (sqr accelerationLimit) (traj.var 1) (traj.var 2) using 1
    all_goals first | (funext x; simp only [sqr]; ring) | ring

/-- Witness of C6: constraint 0 on `oneViolatedTrajReal`, whose `duration0` is 2. -/
theorem constraint_deriv_is_partial_derivative_witness :
    oneViolatedTrajReal.var (relevantDuration 0) ≠ 0 ∧
      ∀ k : Fin numVars,
        HasDerivAt (fun x : ℝ => (constraints 0 (oneViolatedTrajReal.set (freeVar k) x)).error)
          ((constraints 0 oneViolatedTrajReal).deriv k) (oneViolatedTrajReal.var (freeVar k)) :=
  have h : oneViolatedTrajReal.var (relevantDuration 0) ≠ 0 := by
    norm_num [oneViolatedTrajReal, relevantDuration]
  ⟨h, (constraint_deriv_is_partial_derivative oneViolatedTrajReal 0 h).1⟩

/-- C7, as stated, fails: on `oneViolatedTraj` (durations 2 and 10) none of the four errors
equals `a² - 100²` with `a` taken from the specification's closed form. -/
theorem spec_accel_formula_counterexample :
    oneViolatedTraj.var duration0 ≠ 0 ∧ oneViolatedTraj.var duration1 ≠ 0 ∧
      (evalConstraint0 oneViolatedTraj).error ≠
        sqr (specAccelStart (oneViolatedTraj.var pos1X - oneViolatedTraj.var pos0X)
          (oneViolatedTraj.var vel0X) (oneViolatedTraj.var vel1X)
          (oneViolatedTraj.var duration0)) - sqr 100 ∧
      (evalConstraint1 oneViolatedTraj).error ≠
        sqr (specAccelEnd (oneViolatedTraj.var pos1X - oneViolatedTraj.var pos0X)
          (oneViolatedTraj.var vel0X) (oneViolatedTraj.var vel1X)
          (oneViolatedTraj.var duration0)) - sqr 100 ∧
      (evalConstraint2 oneViolatedTraj).error ≠
        sqr (specAccelStart (oneViolatedTraj.var pos2X - oneViolatedTraj.var pos1X)
          (oneViolatedTraj.var vel1X) (oneViolatedTraj.var vel2X)
          (oneViolatedTraj.var duration1)) - sqr 100 ∧
      (evalConstraint3 oneViolatedTraj).error ≠
        sqr (specAccelEnd (oneViolatedTraj.var pos2X - oneViolatedTraj.var pos1X)
          (oneViolatedTraj.var vel1X) (oneViolatedTraj.var vel2X)
          (oneViolatedTraj.var duration1)) - sqr 100 := by
  refine ⟨?_, ?_, ?_, ?_, ?_, ?_⟩ <;>
    norm_num [evalConstraint0, evalConstraint1, evalConstraint2, evalConstraint3, accel0,
      accel1, accel2, accel3, sqr, accelerationLimit, specAccelStart, specAccelEnd,
      oneViolatedTraj]

/-- C7, amended. For a trajectory with nonzero durations each constraint error is
`a² - 100²`, where `a = (Δpos * 6/h - (4*v_start + 2*v_end)) / h` for constraints 0 and 2
and `a = (-(Δpos * 6/h) + (2*v_start + 4*v_end)) / h` for constraints 1 and 3, with
`(Δpos, v_start, v_end, h)` taken from segment 0 for constraints 0, 1 and from segment 1
for constraints 2, 3. -/
theorem constraint_error_formula (traj : Trajectory K)
    (_h0 : traj.var duration0 ≠ 0) (_h1 : traj.var duration1 ≠ 0) :
    (evalConstraint0 traj).error =
        sqr (hermiteAccelStart (traj.var pos1X - traj.var pos0X) (traj.var vel0X)
          (traj.var vel1X) (traj.var duration0)) - sqr 100 ∧
      (evalConstraint1 traj).error =
        sqr (hermiteAccelEnd (traj.var pos1X - traj.var pos0X) (traj.var vel0X)
          (traj.var vel1X) (traj.var duration0)) - sqr 100 ∧
      (evalConstraint2 traj).error =
        sqr (hermiteAccelStart (traj.var pos2X - traj.var pos1X) (traj.var vel1X)
          (traj.var vel2X) (traj.var duration1)) - sqr 100 ∧
      (evalConstraint3 traj).error =
        sqr (hermiteAccelEnd (traj.var pos2X - traj.var pos1X) (traj.var vel1X)
          (traj.var vel2X) (traj.var duration1)) - sqr 100 := by
  refine ⟨?_, ?_, ?_, ?_⟩ <;>
    simp only [evalConstraint0, evalConstraint1, evalConstraint2, evalConstraint3, accel0,
      accel1, accel2, accel3, accelerationLimit, hermiteAccelStart, hermiteAccelEnd] <;>
    congr 2 <;> ring

/-- Witness of the amended C7 on `oneViolatedTraj`. -/
theorem constraint_error_formula_witness :
    oneViolatedTraj.var duration0 ≠ 0 ∧ oneViolatedTraj.var duration1 ≠ 0 ∧
      (evalConstraint0 oneViolatedTraj).error =
        sqr (hermiteAccelStart (oneViolatedTraj.var pos1X - oneViolatedTraj.var pos0X)
          (oneViolatedTraj.var vel0X) (oneViolatedTraj.var vel1X)
          (oneViolatedTraj.var duration0)) - sqr 100 :=
  ⟨by norm_num [oneViolatedTraj], by norm_num [oneViolatedTraj],
    (constraint_error_formula oneViolatedTraj (by norm_num [oneViolatedTraj])
      (by norm_num [oneViolatedTraj])).1⟩

/-- C8, as stated, fails: `shiftedTraj` carries segment 1 of `oneViolatedTraj` in its
segment 0, yet the `vel1X` entry of the gradient of constraint 2 on `oneViolatedTraj`
differs from that of constraint 0 on `shiftedTraj`. -/
theorem shifted_vel1X_slot_counterexample :
    ShiftedSegment oneViolatedTraj shiftedTraj ∧
      (evalConstraint2 oneViolatedTraj).deriv 2 ≠ (evalConstraint0 shiftedTraj).deriv 2 := by
  refine ⟨⟨?_, ?_, ?_, ?_, ?_⟩, ?_⟩ <;>
    norm_num [evalConstraint0, evalConstraint2, accel0, accel2, oneViolatedTraj, shiftedTraj]

/-- C8, amended. If the segment-0 arguments of `T'` are the segment-1 arguments of `T`,
then constraint 2 on `T` and constraint 0 on `T'` have equal errors, the `duration0` and
`duration1` entries of their gradients are exchanged, and the `vel1X` entry of constraint
2 on `T` is twice that of constraint 0 on `T'`. Likewise for constraint 3 on `T` and
constraint 1 on `T'`, where the `vel1X` entry of constraint 1 on `T'` is twice that of
constraint 3 on `T`. -/
theorem shifted_segment_symmetry (T T' : Trajectory K) (hshift : ShiftedSegment T T') :
    ((evalConstraint2 T).error = (evalConstraint0 T').error ∧
        (evalConstraint2 T).deriv 0 = (evalConstraint0 T').deriv 1 ∧
        (evalConstraint2 T).deriv 1 = (evalConstraint0 T').deriv 0 ∧
        (evalConstraint2 T).deriv 2 = 2 * (evalConstraint0 T').deriv 2) ∧
      ((evalConstraint3 T).error = (evalConstraint1 T').error ∧
        (evalConstraint3 T).deriv 0 = (evalConstraint1 T').deriv 1 ∧
        (evalConstraint3 T).deriv 1 = (evalConstraint1 T').deriv 0 ∧
        2 * (evalConstraint3 T).deriv 2 = (evalConstraint1 T').deriv 2) := by
  obtain ⟨hp0, hv0, hp1, hv1, hd⟩ := hshift
  refine ⟨⟨?_, ?_, ?_, ?_⟩, ⟨?_, ?_, ?_, ?_⟩⟩ <;>
    simp [evalConstraint0, evalConstraint1, evalConstraint2, evalConstraint3, accel0,
      accel1, accel2, accel3, hp0, hv0, hp1, hv1, hd] <;>
    ring

/-- Witness of the amended C8 on `oneViolatedTraj` and `shiftedTraj`. -/
theorem shifted_segment_symmetry_witness :
    ShiftedSegment oneViolatedTraj shiftedTraj ∧
      (evalConstraint2 oneViolatedTraj).error = (evalConstraint0 shiftedTraj).error ∧
      (evalConstraint2 oneViolatedTraj).deriv 2 =
        2 * (evalConstraint0 shiftedTraj).deriv 2 :=
  have h : ShiftedSegment oneViolatedTraj shiftedTraj := by
    refine ⟨?_, ?_, ?_, ?_, ?_⟩ <;> norm_num [oneViolatedTraj, shiftedTraj]
  ⟨h, (shifted_segment_symmetry oneViolatedTraj shiftedTraj h).1.1,
    (shifted_segment_symmetry oneViolatedTraj shiftedTraj h).1.2.2.2⟩

/-- C9. On the trajectory of `init` the acceleration computed by `evalConstraint0` is
`(200*6/3.4641 - 0)/3.4641`, it lies within 0.001 of the limit 100, and the error of
constraint 0 lies within 0.02 of 0. -/
theorem init_constraint0_near_boundary :
    accel0 (init : Trajectory K) = (200 * 6 / 3.4641 - 0) / 3.4641 ∧
      |accel0 (init : Trajectory K) - accelerationLimit| < 0.001 ∧
      |(evalConstraint0 (init : Trajectory K)).error - 0| < 0.02 := by
  rw [init_eq_ofValues]
  refine ⟨?_, ?_, ?_⟩ <;>
    norm_num [evalConstraint0, accel0, sqr, accelerationLimit, abs_lt]

/-- C10. On the trajectory of `init` all four constraint errors equal
`(1200 / 3.4641²)² - 100²`, which is positive because `3.4641² < 12`. Hence the baseline
is not feasible, `moveTowardFeasibility` selects all four constraints as violated and
`moveInConstrainedGradientDir` selects all four as active, and the step of
`moveTowardFeasibility` is the solved step `g.transpose() * -m` with `n = 4`, not the
zero step of the feasible case. -/
theorem init_all_constraints_violated (solve : Solver K) :
    (∀ i, (evalConstraints (init : Trajectory K) i).error =
        sqr (1200 / sqr 3.4641) - sqr 100) ∧
      sqr (3.4641 : K) < 12 ∧
      0 < sqr (1200 / sqr (3.4641 : K)) - sqr 100 ∧
      ¬ (∀ i, (evalConstraints (init : Trajectory K) i).error ≤ 0) ∧
      violatedConstraints (evalConstraints (init : Trajectory K)) = [0, 1, 2, 3] ∧
      activeConstraints (evalConstraints (init : Trajectory K)) = [0, 1, 2, 3] ∧
      (violatedConstraints (evalConstraints (init : Trajectory K))).length = 4 ∧
      feasibilityStep solve (evalConstraints (init : Trajectory K))
          (violatedConstraints (evalConstraints (init : Trajectory K))) =
        (gatherGradients (evalConstraints (init : Trajectory K))
            (violatedConstraints (evalConstraints (init : Trajectory K))))ᵀ *ᵥ
          (-feasibilityMultipliers solve (evalConstraints (init : Trajectory K))
            (violatedConstraints (evalConstraints (init : Trajectory K)))) := by
  have hpos := init_error_pos (K := K)
  have hviol : violatedConstraints (evalConstraints (init : Trajectory K)) = [0, 1, 2, 3] := by
    simp only [violatedConstraints, finRange_numConstraints, init_error]
    simp [hpos]
  have hact : activeConstraints (evalConstraints (init : Trajectory K)) = [0, 1, 2, 3] := by
    have hnot : ¬ (sqr (1200 / sqr (3.4641 : K)) - sqr 100 ≤ -1.0e-4) := by
      norm_num [sqr]
    simp only [activeConstraints, finRange_numConstraints, init_error]
    simp [hnot]
  refine ⟨init_error, by norm_num [sqr], hpos, ?_, hviol, hact, ?_, ?_⟩
  · intro hall
    have := hall 0
    rw [init_error] at this
    exact absurd hpos (not_lt.mpr this)
  · rw [hviol]; rfl
  · have hlen : (violatedConstraints (evalConstraints (init : Trajectory K))).length > 0 := by
      rw [hviol]; decide
    simp only [feasibilityStep, hlen, if_true]

end Claims

end OneDPath
